import Mathlib

/-!
Shallow embedding of `dnf/cli/commands/install.py` (class `InstallCommand`),
the installation request dispatcher of the dnf CLI.

The resolution/transaction engine (`self.base`) is abstracted as a record of
pure functions (`Engine`): each collaborator call is deterministic and its
possible failure modes are encoded in its return type.  `InstallCommand.run`
is translated control-flow point by control-flow point; every call the
dispatcher makes into the engine is additionally recorded in an event trace,
so that ordering and never-calls claims can be stated.

Exceptions of the Python source are modelled as early returns carrying a
`RunResult` other than `RunResult.ok`:
  * `dnf.exceptions.Error('Nothing to do.')`       → `RunResult.nothingToDo`
  * re-raised `dnf.exceptions.Error` from groups   → `RunResult.groupError`
  * `dnf.exceptions.PackagesNotAvailableError`     → `RunResult.packagesNotAvailable`
`dnf.exceptions.MarkingError` raised by `base.install` / `base.package_install`
is always caught locally in the source, so those engine calls are modelled as
returning `Bool` (`true` = success, `false` = MarkingError).
-/

namespace Dnf

/-- Constants of the hawkey module referenced by `InstallCommand.nevra_forms`:
`hawkey.FORM_NAME`, `hawkey.FORM_NA`, `hawkey.FORM_NEVRA`. -/
inductive NevraForm where
  | FORM_NAME
  | FORM_NA
  | FORM_NEVRA
  deriving DecidableEq

/-- The parsed options consumed by `InstallCommand.run` (`self.opts`):
`command` is the list of raw command tokens, and `ParseSpecGroupFileCallback`
has already split the positional arguments into package specs, group specs
(without the `@` prefix) and local file paths. -/
structure Opts where
  command : List String
  pkg_specs : List String
  grp_specs : List String
  filenames : List String
  assumeyes : Bool
  deriving DecidableEq

/-- The configuration bits read by the dispatcher (`self.base.conf`). -/
structure Conf where
  strict : Bool
  deriving DecidableEq

/-- A `dnf.exceptions.Error` raised by `base.env_group_install`.  The `hard`
flag records whether the engine considers it a hard resolution failure as
opposed to a mere "not found"; the dispatcher itself never inspects it. -/
structure GroupError where
  hard : Bool
  deriving DecidableEq

/-- One call made by the dispatcher into the resolution engine, recorded in
order of execution.  Packages returned by `add_remote_rpms` are identified by
their location string. -/
inductive Event where
  | applySecurityFilter
  | installModule (grp_specs : List String) (assumeyes : Bool)
  | addRemoteRpms (filenames : List String) (strict : Bool)
  | packageInstall (pkg : String) (strict : Bool)
  | readComps
  | envGroupInstall (grp_specs : List String) (strict : Bool)
  | installPkg (pkg_spec : String) (strict : Bool) (forms : List NevraForm)
  | reportIcaseHint (pkg_spec : String)
  deriving DecidableEq

/-- The outcome of one `InstallCommand.run` invocation. -/
inductive RunResult where
  | ok
  | nothingToDo
  | groupError (e : GroupError)
  | packagesNotAvailable (pkg_spec : String) (packages : List String)
  deriving DecidableEq

/-- The resolution/transaction engine (`self.base`), abstracted to the
operations `InstallCommand` invokes.  Each field is a pure function; failure
modes are encoded in the return types as described in the file header. -/
structure Engine where
  install_module : List String → Bool → List String
  add_remote_rpms : List String → Bool → List String
  package_install : String → Bool → Bool
  env_group_install : List String → Bool → Option GroupError
  install : String → Bool → List NevraForm → Bool

namespace InstallCommand

/-- The class attribute `InstallCommand.nevra_forms`: the mapping from
form-qualified command aliases to hawkey forms. -/
def nevra_forms : List (String × NevraForm) :=
  [("install-n", NevraForm.FORM_NAME),
   ("install-na", NevraForm.FORM_NA),
   ("install-nevra", NevraForm.FORM_NEVRA)]

/-- `InstallCommand._get_nevra_forms_from_command`: collect the hawkey form of
every command token that is a key of `nevra_forms`. -/
def _get_nevra_forms_from_command (command : List String) : List NevraForm :=
  command.filterMap (fun c => nevra_forms.lookup c)

/-- The loop body of `InstallCommand._install_files`: call
`base.package_install(pkg, strict=strict)` on every package produced by
`add_remote_rpms`, collecting the packages whose installation raised
`MarkingError` into `err_pkgs`.  Returns the emitted events and `err_pkgs`. -/
def package_install_loop (eng : Engine) (strict : Bool) :
    List String → List Event × List String
  | [] => ([], [])
  | pkg :: rest =>
    let rec_result := package_install_loop eng strict rest
    if eng.package_install pkg strict then
      (Event.packageInstall pkg strict :: rec_result.1, rec_result.2)
    else
      (Event.packageInstall pkg strict :: rec_result.1, pkg :: rec_result.2)

/-- `InstallCommand._install_files`: feed `self.opts.filenames` to
`base.add_remote_rpms` and try `base.package_install` on every resulting
package; return the emitted events and the list `err_pkgs` of packages that
failed to be marked. -/
def _install_files (eng : Engine) (opts : Opts) (strict : Bool) :
    List Event × List String :=
  let pkgs := eng.add_remote_rpms opts.filenames strict
  let looped := package_install_loop eng strict pkgs
  (Event.addRemoteRpms opts.filenames strict :: looped.1, looped.2)

/-- `InstallCommand._install_groups`: read comps, then call
`base.env_group_install` and swallow a raised `dnf.exceptions.Error` unless
`self.base.conf.strict` holds, in which case it is re-raised (returned as
`some e`).  Mirroring the source, the `grp_specs` parameter (the skipped
specs passed at the call site) is ignored and `self.opts.grp_specs` is what
is handed to `env_group_install`. -/
def _install_groups (eng : Engine) (opts : Opts) (grp_specs : List String)
    (strict : Bool) : List Event × Option GroupError :=
  let events := [Event.readComps, Event.envGroupInstall opts.grp_specs strict]
  match eng.env_group_install opts.grp_specs strict with
  | some e => (events, if strict then some e else none)
  | none => (events, none)

/-- `InstallCommand._install_packages`: call `base.install` on every package
spec with the detected nevra forms; on `MarkingError`, report the icase hint
and collect the spec into `errs`.  Returns the emitted events and `errs`. -/
def _install_packages (eng : Engine) (strict : Bool)
    (forms : List NevraForm) : List String → List Event × List String
  | [] => ([], [])
  | pkg_spec :: rest =>
    let rec_result := _install_packages eng strict forms rest
    if eng.install pkg_spec strict forms then
      (Event.installPkg pkg_spec strict forms :: rec_result.1, rec_result.2)
    else
      (Event.installPkg pkg_spec strict forms :: Event.reportIcaseHint pkg_spec :: rec_result.1,
       pkg_spec :: rec_result.2)

/-- Final lines of `InstallCommand.run`: raise `PackagesNotAvailableError`
when `errs` or `err_pkgs` is non-empty and strict mode is on.  The payload is
`pkg_spec=' '.join(errs)` and `packages=err_pkgs`. -/
def finalize (strict : Bool) (errs err_pkgs : List String) : RunResult :=
  if (errs ≠ [] ∨ err_pkgs ≠ []) ∧ strict = true then
    RunResult.packagesNotAvailable (String.intercalate " " errs) err_pkgs
  else
    RunResult.ok

/-- Package phase of `InstallCommand.run`: unless the command is
`localinstall`, run `_install_packages` over `self.opts.pkg_specs`, then
finalize.  Returns the engine calls made from this point on, and the
outcome. -/
def packagesPhase (eng : Engine) (opts : Opts) (strict : Bool)
    (forms : List NevraForm) (err_pkgs : List String) :
    List Event × RunResult :=
  if opts.command ≠ ["localinstall"] then
    let p := _install_packages eng strict forms opts.pkg_specs
    (p.1, finalize strict p.2 err_pkgs)
  else
    ([], finalize strict [] err_pkgs)

/-- Group phase of `InstallCommand.run`: the skipped-specs/nevra-forms
conflict check, then classic group installation through `_install_groups`
when skipped group specs remain and the command is not `localinstall`.
Returns the engine calls made from this point on, and the outcome. -/
def groupsPhase (eng : Engine) (opts : Opts) (strict : Bool)
    (forms : List NevraForm) (skipped_grp_specs : List String)
    (err_pkgs : List String) : List Event × RunResult :=
  if skipped_grp_specs ≠ [] ∧ forms ≠ [] then
    if strict = true then ([], RunResult.nothingToDo)
    else packagesPhase eng opts strict forms err_pkgs
  else if skipped_grp_specs ≠ [] ∧ opts.command ≠ ["localinstall"] then
    let g := _install_groups eng opts skipped_grp_specs strict
    match g.2 with
    | some e => (g.1, RunResult.groupError e)
    | none =>
      let p := packagesPhase eng opts strict forms err_pkgs
      (g.1 ++ p.1, p.2)
  else
    packagesPhase eng opts strict forms err_pkgs

/-- File phase of `InstallCommand.run`: the filenames/nevra-forms conflict
check; when there is no conflict, `_install_files` is executed (also when the
filename list is empty).  Returns the engine calls made from this point on,
and the outcome. -/
def filesPhase (eng : Engine) (opts : Opts) (strict : Bool)
    (forms : List NevraForm) (skipped_grp_specs : List String) :
    List Event × RunResult :=
  if opts.filenames ≠ [] ∧ forms ≠ [] then
    if strict = true then ([], RunResult.nothingToDo)
    else groupsPhase eng opts strict forms skipped_grp_specs []
  else
    let f := _install_files eng opts strict
    let g := groupsPhase eng opts strict forms skipped_grp_specs f.2
    (f.1 ++ g.1, g.2)

/-- Module phase of `InstallCommand.run`: `skipped_grp_specs` starts as
`self.opts.grp_specs` and is replaced by the result of `base.install_module`
when group specs are present and the command is not `localinstall`.  Returns
the engine calls made from this point on, and the outcome. -/
def modulePhase (eng : Engine) (opts : Opts) (strict : Bool)
    (forms : List NevraForm) : List Event × RunResult :=
  if opts.grp_specs ≠ [] ∧ opts.command ≠ ["localinstall"] then
    let f := filesPhase eng opts strict forms
      (eng.install_module opts.grp_specs opts.assumeyes)
    (Event.installModule opts.grp_specs opts.assumeyes :: f.1, f.2)
  else
    filesPhase eng opts strict forms opts.grp_specs

/-- `InstallCommand.run`: the whole dispatch.  The update security filter is
applied first; then the `localinstall`-with-specs usage check may raise
"Nothing to do." under strict mode; the remaining phases follow in source
order.  Returns the trace of engine calls and the outcome. -/
def run (eng : Engine) (opts : Opts) (conf : Conf) : List Event × RunResult :=
  let forms := _get_nevra_forms_from_command opts.command
  if opts.command = ["localinstall"] ∧ (opts.grp_specs ≠ [] ∨ opts.pkg_specs ≠ [])
      ∧ conf.strict = true then
    ([Event.applySecurityFilter], RunResult.nothingToDo)
  else
    let m := modulePhase eng opts conf.strict forms
    (Event.applySecurityFilter :: m.1, m.2)

end InstallCommand

/-- Recognizer for the security-filter event. -/
def Event.isApplySecurityFilter : Event → Bool
  | Event.applySecurityFilter => true
  | _ => false

/-- Recognizer for the remote-RPM intake event (`base.add_remote_rpms`). -/
def Event.isAddRemoteRpms : Event → Bool
  | Event.addRemoteRpms _ _ => true
  | _ => false

/-- Recognizer for a per-spec package installation call (`base.install`). -/
def Event.isInstallPkg : Event → Bool
  | Event.installPkg _ _ _ => true
  | _ => false

/-- Recognizer for an engine call that installs packages or groups:
`base.package_install`, `base.install`, or `base.env_group_install`. -/
def Event.isPkgOrGroupInstall : Event → Bool
  | Event.packageInstall _ _ => true
  | Event.installPkg _ _ _ => true
  | Event.envGroupInstall _ _ => true
  | _ => false

/-- Recognizer for the engine calls a `localinstall` run is allowed to make
besides the security filter: file intake and per-file package install. -/
def Event.isLocalinstallAllowed : Event → Bool
  | Event.applySecurityFilter => true
  | Event.addRemoteRpms _ _ => true
  | Event.packageInstall _ _ => true
  | _ => false

/-- The package specs of the per-spec package installation calls in a trace,
in order. -/
def installPkgSpecsOf (trace : List Event) : List String :=
  trace.filterMap (fun e =>
    match e with
    | Event.installPkg s _ _ => some s
    | _ => none)

section Fixtures

/-- Engine whose module layer satisfies the group spec "a" and skips "b",
and in which every package resolves. -/
def engModAB : Engine :=
  { install_module := fun _ _ => ["b"]
    add_remote_rpms := fun _ _ => []
    package_install := fun _ _ => true
    env_group_install := fun _ _ => none
    install := fun _ _ _ => true }

/-- Engine in which every package spec fails to match (`base.install` raises
`MarkingError` on every spec) and everything else succeeds. -/
def engNoMatch : Engine :=
  { install_module := fun gs _ => gs
    add_remote_rpms := fun _ _ => []
    package_install := fun _ _ => true
    env_group_install := fun _ _ => none
    install := fun _ _ _ => false }

/-- Engine in which everything succeeds; the module layer skips every group
spec. -/
def engAllOk : Engine :=
  { install_module := fun gs _ => gs
    add_remote_rpms := fun fs _ => fs
    package_install := fun _ _ => true
    env_group_install := fun _ _ => none
    install := fun _ _ _ => true }

/-- Engine whose classic group installation signals a hard resolution error;
the module layer skips every group spec. -/
def engGroupHardErr : Engine :=
  { install_module := fun gs _ => gs
    add_remote_rpms := fun _ _ => []
    package_install := fun _ _ => true
    env_group_install := fun _ _ => some { hard := true }
    install := fun _ _ _ => true }

/-- Engine in which only the package spec "a" resolves. -/
def engMatchAOnly : Engine :=
  { install_module := fun gs _ => gs
    add_remote_rpms := fun fs _ => fs
    package_install := fun _ _ => true
    env_group_install := fun _ _ => none
    install := fun s _ _ => s == "a" }

/-- Request: `dnf install @a @b`. -/
def optsGroupsAB : Opts :=
  { command := ["install"], pkg_specs := [], grp_specs := ["a", "b"],
    filenames := [], assumeyes := true }

/-- Request: `dnf install x x`. -/
def optsPkgsXX : Opts :=
  { command := ["install"], pkg_specs := ["x", "x"], grp_specs := [],
    filenames := [], assumeyes := false }

/-- Request: `dnf install a b`. -/
def optsPkgsAB : Opts :=
  { command := ["install"], pkg_specs := ["a", "b"], grp_specs := [],
    filenames := [], assumeyes := false }

/-- Request: `dnf install @g`. -/
def optsGroupG : Opts :=
  { command := ["install"], pkg_specs := [], grp_specs := ["g"],
    filenames := [], assumeyes := false }

/-- Request: `dnf localinstall a`. -/
def optsLocalPkgA : Opts :=
  { command := ["localinstall"], pkg_specs := ["a"], grp_specs := [],
    filenames := [], assumeyes := false }

/-- Request: `dnf install-n p f.rpm` (a file path together with a
form-qualified alias). -/
def optsFormFile : Opts :=
  { command := ["install-n"], pkg_specs := ["p"], grp_specs := [],
    filenames := ["f.rpm"], assumeyes := false }

/-- Request: `dnf localinstall @g`. -/
def optsLocalGroupG : Opts :=
  { command := ["localinstall"], pkg_specs := [], grp_specs := ["g"],
    filenames := [], assumeyes := false }

/-- Request: `dnf localinstall a.rpm`. -/
def optsLocalFileA : Opts :=
  { command := ["localinstall"], pkg_specs := [], grp_specs := [],
    filenames := ["a.rpm"], assumeyes := false }

/-- Request: `dnf install p` with no file paths. -/
def optsPkgP : Opts :=
  { command := ["install"], pkg_specs := ["p"], grp_specs := [],
    filenames := [], assumeyes := false }

end Fixtures

namespace InstallCommand

theorem package_install_loop_snd (eng : Engine) (strict : Bool)
    (pkgs : List String) :
    (package_install_loop eng strict pkgs).2 =
      pkgs.filter (fun p => !eng.package_install p strict) := by
  induction pkgs with
  | nil => rfl
  | cons p rest ih =>
    simp only [package_install_loop, List.filter_cons]
    by_cases h : eng.package_install p strict = true
    · simp [h, ih]
    · simp [h, ih, Bool.not_eq_true _ ▸ h]

theorem package_install_loop_mem (eng : Engine) (strict : Bool)
    (pkgs : List String) (e : Event)
    (he : e ∈ (package_install_loop eng strict pkgs).1) :
    ∃ p, e = Event.packageInstall p strict := by
  induction pkgs with
  | nil => simp [package_install_loop] at he
  | cons p rest ih =>
    simp only [package_install_loop] at he
    by_cases h : eng.package_install p strict = true
    · rw [if_pos h] at he
      rcases List.mem_cons.mp he with rfl | he
      · exact ⟨p, rfl⟩
      · exact ih he
    · rw [if_neg h] at he
      rcases List.mem_cons.mp he with rfl | he
      · exact ⟨p, rfl⟩
      · exact ih he

theorem _install_packages_snd (eng : Engine) (strict : Bool)
    (forms : List NevraForm) (specs : List String) :
    (_install_packages eng strict forms specs).2 =
      specs.filter (fun s => !eng.install s strict forms) := by
  induction specs with
  | nil => rfl
  | cons s rest ih =>
    simp only [_install_packages, List.filter_cons]
    by_cases h : eng.install s strict forms = true
    · simp [h, ih]
    · simp [h, ih]

theorem _install_packages_mem (eng : Engine) (strict : Bool)
    (forms : List NevraForm) (specs : List String) (e : Event)
    (he : e ∈ (_install_packages eng strict forms specs).1) :
    (∃ s, e = Event.installPkg s strict forms) ∨
      ∃ s, e = Event.reportIcaseHint s := by
  induction specs with
  | nil => simp [_install_packages] at he
  | cons s rest ih =>
    simp only [_install_packages] at he
    by_cases h : eng.install s strict forms = true
    · rw [if_pos h] at he
      rcases List.mem_cons.mp he with rfl | he
      · exact Or.inl ⟨s, rfl⟩
      · exact ih he
    · rw [if_neg h] at he
      rcases List.mem_cons.mp he with rfl | he
      · exact Or.inl ⟨s, rfl⟩
      rcases List.mem_cons.mp he with rfl | he
      · exact Or.inr ⟨s, rfl⟩
      · exact ih he

theorem installPkgSpecsOf_install_packages (eng : Engine) (strict : Bool)
    (forms : List NevraForm) (specs : List String) :
    installPkgSpecsOf (_install_packages eng strict forms specs).1 = specs := by
  induction specs with
  | nil => rfl
  | cons s rest ih =>
    simp only [_install_packages]
    by_cases h : eng.install s strict forms = true
    · simp [h, installPkgSpecsOf] at ih ⊢
      exact ih
    · simp [h, installPkgSpecsOf] at ih ⊢
      exact ih

theorem installPkgSpecsOf_package_install_loop (eng : Engine) (strict : Bool)
    (pkgs : List String) :
    installPkgSpecsOf (package_install_loop eng strict pkgs).1 = [] := by
  induction pkgs with
  | nil => rfl
  | cons p rest ih =>
    simp only [package_install_loop]
    by_cases h : eng.package_install p strict = true
    · simp [h, installPkgSpecsOf] at ih ⊢
      exact ih
    · simp [h, installPkgSpecsOf] at ih ⊢
      exact ih

theorem _install_groups_fst (eng : Engine) (opts : Opts)
    (grp_specs : List String) (strict : Bool) :
    (_install_groups eng opts grp_specs strict).1 =
      [Event.readComps, Event.envGroupInstall opts.grp_specs strict] := by
  unfold _install_groups
  cases eng.env_group_install opts.grp_specs strict <;> rfl

theorem _install_groups_snd_nonstrict (eng : Engine) (opts : Opts)
    (grp_specs : List String) :
    (_install_groups eng opts grp_specs false).2 = none := by
  unfold _install_groups
  cases eng.env_group_install opts.grp_specs false <;> rfl

theorem packagesPhase_mem (eng : Engine) (opts : Opts) (strict : Bool)
    (forms : List NevraForm) (err_pkgs : List String) (e : Event)
    (he : e ∈ (packagesPhase eng opts strict forms err_pkgs).1) :
    (∃ s, e = Event.installPkg s strict forms) ∨
      ∃ s, e = Event.reportIcaseHint s := by
  by_cases h : opts.command ≠ ["localinstall"]
  · rw [packagesPhase, if_pos h] at he
    exact _install_packages_mem eng strict forms opts.pkg_specs e he
  · rw [packagesPhase, if_neg h] at he
    simp at he

theorem groupsPhase_mem (eng : Engine) (opts : Opts) (strict : Bool)
    (forms : List NevraForm) (skipped_grp_specs err_pkgs : List String)
    (e : Event)
    (he : e ∈ (groupsPhase eng opts strict forms skipped_grp_specs err_pkgs).1) :
    e = Event.readComps ∨ e = Event.envGroupInstall opts.grp_specs strict ∨
      (∃ s, e = Event.installPkg s strict forms) ∨
      ∃ s, e = Event.reportIcaseHint s := by
  by_cases h1 : skipped_grp_specs ≠ [] ∧ forms ≠ []
  · rw [groupsPhase, if_pos h1] at he
    by_cases hs : strict = true
    · rw [if_pos hs] at he
      simp at he
    · rw [if_neg hs] at he
      have h := packagesPhase_mem eng opts strict forms err_pkgs e he
      tauto
  · by_cases h2 : skipped_grp_specs ≠ [] ∧ opts.command ≠ ["localinstall"]
    · rw [groupsPhase, if_neg h1, if_pos h2] at he
      cases hg : (_install_groups eng opts skipped_grp_specs strict).2 with
      | some err =>
        simp only [hg] at he
        rw [_install_groups_fst] at he
        rcases List.mem_cons.mp he with rfl | he
        · exact Or.inl rfl
        rcases List.mem_cons.mp he with rfl | he
        · exact Or.inr (Or.inl rfl)
        · simp at he
      | none =>
        simp only [hg] at he
        rcases List.mem_append.mp he with he | he
        · rw [_install_groups_fst] at he
          rcases List.mem_cons.mp he with rfl | he
          · exact Or.inl rfl
          rcases List.mem_cons.mp he with rfl | he
          · exact Or.inr (Or.inl rfl)
          · simp at he
        · have h := packagesPhase_mem eng opts strict forms err_pkgs e he
          tauto
    · rw [groupsPhase, if_neg h1, if_neg h2] at he
      have h := packagesPhase_mem eng opts strict forms err_pkgs e he
      tauto

theorem filesPhase_mem (eng : Engine) (opts : Opts) (strict : Bool)
    (forms : List NevraForm) (skipped_grp_specs : List String) (e : Event)
    (he : e ∈ (filesPhase eng opts strict forms skipped_grp_specs).1) :
    e = Event.addRemoteRpms opts.filenames strict ∨
      (∃ p, e = Event.packageInstall p strict) ∨
      e = Event.readComps ∨ e = Event.envGroupInstall opts.grp_specs strict ∨
      (∃ s, e = Event.installPkg s strict forms) ∨
      ∃ s, e = Event.reportIcaseHint s := by
  by_cases h1 : opts.filenames ≠ [] ∧ forms ≠ []
  · rw [filesPhase, if_pos h1] at he
    by_cases hs : strict = true
    · rw [if_pos hs] at he
      simp at he
    · rw [if_neg hs] at he
      have h := groupsPhase_mem eng opts strict forms skipped_grp_specs [] e he
      tauto
  · rw [filesPhase, if_neg h1] at he
    rcases List.mem_append.mp he with he | he
    · rw [_install_files] at he
      rcases List.mem_cons.mp he with rfl | he
      · exact Or.inl rfl
      · rcases package_install_loop_mem eng strict _ e he with ⟨p, rfl⟩
        exact Or.inr (Or.inl ⟨p, rfl⟩)
    · have h := groupsPhase_mem eng opts strict forms skipped_grp_specs _ e he
      tauto

theorem modulePhase_mem (eng : Engine) (opts : Opts) (strict : Bool)
    (forms : List NevraForm) (e : Event)
    (he : e ∈ (modulePhase eng opts strict forms).1) :
    e = Event.installModule opts.grp_specs opts.assumeyes ∨
      e = Event.addRemoteRpms opts.filenames strict ∨
      (∃ p, e = Event.packageInstall p strict) ∨
      e = Event.readComps ∨ e = Event.envGroupInstall opts.grp_specs strict ∨
      (∃ s, e = Event.installPkg s strict forms) ∨
      ∃ s, e = Event.reportIcaseHint s := by
  by_cases h : opts.grp_specs ≠ [] ∧ opts.command ≠ ["localinstall"]
  · rw [modulePhase, if_pos h] at he
    rcases List.mem_cons.mp he with rfl | he
    · exact Or.inl rfl
    · exact Or.inr (filesPhase_mem eng opts strict forms _ e he)
  · rw [modulePhase, if_neg h] at he
    exact Or.inr (filesPhase_mem eng opts strict forms _ e he)

theorem nevra_forms_of_localinstall :
    _get_nevra_forms_from_command ["localinstall"] = [] := rfl

theorem finalize_eq_pNA (strict : Bool) (errs err_pkgs : List String)
    (s : String) (pkgs : List String)
    (h : finalize strict errs err_pkgs = RunResult.packagesNotAvailable s pkgs) :
    s = String.intercalate " " errs ∧ pkgs = err_pkgs ∧ strict = true ∧
      (errs ≠ [] ∨ err_pkgs ≠ []) := by
  unfold finalize at h
  split at h
  case isTrue hcond =>
    injection h with h1 h2
    exact ⟨h1.symm, h2.symm, hcond.2, hcond.1⟩
  case isFalse => exact absurd h (by simp)

theorem finalize_nonstrict (errs err_pkgs : List String) :
    finalize false errs err_pkgs = RunResult.ok := by
  simp [finalize]

theorem packagesPhase_snd_eq (eng : Engine) (opts : Opts) (strict : Bool)
    (forms : List NevraForm) (err_pkgs : List String)
    (hc : opts.command ≠ ["localinstall"]) :
    (packagesPhase eng opts strict forms err_pkgs).2 =
      finalize strict (opts.pkg_specs.filter fun x => !eng.install x strict forms)
        err_pkgs := by
  simp [packagesPhase, hc, _install_packages_snd]

theorem packagesPhase_pNA (eng : Engine) (opts : Opts) (strict : Bool)
    (forms : List NevraForm) (err_pkgs : List String) (s : String)
    (pkgs : List String)
    (h : (packagesPhase eng opts strict forms err_pkgs).2 =
      RunResult.packagesNotAvailable s pkgs) :
    s = String.intercalate " " (if opts.command = ["localinstall"] then []
      else opts.pkg_specs.filter fun x => !eng.install x strict forms) := by
  by_cases hc : opts.command ≠ ["localinstall"]
  · rw [packagesPhase_snd_eq eng opts strict forms err_pkgs hc] at h
    rcases finalize_eq_pNA _ _ _ _ _ h with ⟨hs, -, -, -⟩
    rw [if_neg hc]
    exact hs
  · rw [packagesPhase, if_neg hc] at h
    rcases finalize_eq_pNA _ _ _ _ _ h with ⟨hs, -, -, -⟩
    rw [if_pos (not_not.mp hc)]
    exact hs

theorem groupsPhase_pNA (eng : Engine) (opts : Opts) (strict : Bool)
    (forms : List NevraForm) (skipped_grp_specs err_pkgs : List String)
    (s : String) (pkgs : List String)
    (h : (groupsPhase eng opts strict forms skipped_grp_specs err_pkgs).2 =
      RunResult.packagesNotAvailable s pkgs) :
    s = String.intercalate " " (if opts.command = ["localinstall"] then []
      else opts.pkg_specs.filter fun x => !eng.install x strict forms) := by
  by_cases h1 : skipped_grp_specs ≠ [] ∧ forms ≠ []
  · rw [groupsPhase, if_pos h1] at h
    by_cases hs : strict = true
    · rw [if_pos hs] at h
      exact absurd h (by simp)
    · rw [if_neg hs] at h
      exact packagesPhase_pNA eng opts strict forms err_pkgs s pkgs h
  · by_cases h2 : skipped_grp_specs ≠ [] ∧ opts.command ≠ ["localinstall"]
    · rw [groupsPhase, if_neg h1, if_pos h2] at h
      cases hg : (_install_groups eng opts skipped_grp_specs strict).2 with
      | some err =>
        simp only [hg] at h
        exact absurd h (by simp)
      | none =>
        simp only [hg] at h
        exact packagesPhase_pNA eng opts strict forms err_pkgs s pkgs h
    · rw [groupsPhase, if_neg h1, if_neg h2] at h
      exact packagesPhase_pNA eng opts strict forms err_pkgs s pkgs h

theorem filesPhase_pNA (eng : Engine) (opts : Opts) (strict : Bool)
    (forms : List NevraForm) (skipped_grp_specs : List String)
    (s : String) (pkgs : List String)
    (h : (filesPhase eng opts strict forms skipped_grp_specs).2 =
      RunResult.packagesNotAvailable s pkgs) :
    s = String.intercalate " " (if opts.command = ["localinstall"] then []
      else opts.pkg_specs.filter fun x => !eng.install x strict forms) := by
  by_cases h1 : opts.filenames ≠ [] ∧ forms ≠ []
  · rw [filesPhase, if_pos h1] at h
    by_cases hs : strict = true
    · rw [if_pos hs] at h
      exact absurd h (by simp)
    · rw [if_neg hs] at h
      exact groupsPhase_pNA eng opts strict forms skipped_grp_specs [] s pkgs h
  · rw [filesPhase, if_neg h1] at h
    exact groupsPhase_pNA eng opts strict forms skipped_grp_specs _ s pkgs h

theorem modulePhase_pNA (eng : Engine) (opts : Opts) (strict : Bool)
    (forms : List NevraForm) (s : String) (pkgs : List String)
    (h : (modulePhase eng opts strict forms).2 =
      RunResult.packagesNotAvailable s pkgs) :
    s = String.intercalate " " (if opts.command = ["localinstall"] then []
      else opts.pkg_specs.filter fun x => !eng.install x strict forms) := by
  by_cases hm : opts.grp_specs ≠ [] ∧ opts.command ≠ ["localinstall"]
  · rw [modulePhase, if_pos hm] at h
    exact filesPhase_pNA eng opts strict forms _ s pkgs h
  · rw [modulePhase, if_neg hm] at h
    exact filesPhase_pNA eng opts strict forms _ s pkgs h

theorem run_pNA (eng : Engine) (opts : Opts) (conf : Conf) (s : String)
    (pkgs : List String)
    (h : (run eng opts conf).2 = RunResult.packagesNotAvailable s pkgs) :
    s = String.intercalate " " (if opts.command = ["localinstall"] then []
      else opts.pkg_specs.filter fun x =>
        !eng.install x conf.strict (_get_nevra_forms_from_command opts.command)) := by
  by_cases h0 : opts.command = ["localinstall"] ∧
      (opts.grp_specs ≠ [] ∨ opts.pkg_specs ≠ []) ∧ conf.strict = true
  · rw [run, if_pos h0] at h
    exact absurd h (by simp)
  · rw [run, if_neg h0] at h
    exact modulePhase_pNA eng opts conf.strict _ s pkgs h

theorem groupsPhase_snd_no_forms (eng : Engine) (opts : Opts) (strict : Bool)
    (skipped_grp_specs err_pkgs : List String)
    (hge : eng.env_group_install opts.grp_specs strict = none) :
    (groupsPhase eng opts strict [] skipped_grp_specs err_pkgs).2 =
      (packagesPhase eng opts strict [] err_pkgs).2 := by
  by_cases h2 : skipped_grp_specs ≠ [] ∧ opts.command ≠ ["localinstall"]
  · simp [groupsPhase, h2, _install_groups, hge]
  · simp [groupsPhase, h2]

theorem run_snd_char (eng : Engine) (opts : Opts) (conf : Conf)
    (hc : opts.command ≠ ["localinstall"])
    (hn : _get_nevra_forms_from_command opts.command = [])
    (hge : eng.env_group_install opts.grp_specs conf.strict = none) :
    (run eng opts conf).2 =
      finalize conf.strict
        (opts.pkg_specs.filter fun x => !eng.install x conf.strict [])
        ((eng.add_remote_rpms opts.filenames conf.strict).filter
          fun p => !eng.package_install p conf.strict) := by
  have h0 : ¬(opts.command = ["localinstall"] ∧
      (opts.grp_specs ≠ [] ∨ opts.pkg_specs ≠ []) ∧ conf.strict = true) :=
    fun hh => hc hh.1
  rw [run, if_neg h0]
  show (modulePhase eng opts conf.strict
    (_get_nevra_forms_from_command opts.command)).2 = _
  rw [hn]
  have hfiles : ∀ skipped : List String,
      (filesPhase eng opts conf.strict [] skipped).2 =
        finalize conf.strict
          (opts.pkg_specs.filter fun x => !eng.install x conf.strict [])
          ((eng.add_remote_rpms opts.filenames conf.strict).filter
            fun p => !eng.package_install p conf.strict) := by
    intro skipped
    have h1 : ¬(opts.filenames ≠ [] ∧ ([] : List NevraForm) ≠ []) := by simp
    rw [filesPhase, if_neg h1]
    show (groupsPhase eng opts conf.strict [] skipped
      (_install_files eng opts conf.strict).2).2 = _
    rw [groupsPhase_snd_no_forms eng opts conf.strict skipped _ hge,
      packagesPhase_snd_eq eng opts conf.strict [] _ hc]
    have : (_install_files eng opts conf.strict).2 =
        (eng.add_remote_rpms opts.filenames conf.strict).filter
          (fun p => !eng.package_install p conf.strict) := by
      simp [_install_files, package_install_loop_snd]
    rw [this]
  by_cases hm : opts.grp_specs ≠ [] ∧ opts.command ≠ ["localinstall"]
  · rw [modulePhase, if_pos hm]
    exact hfiles _
  · rw [modulePhase, if_neg hm]
    exact hfiles _

theorem packagesPhase_nonstrict (eng : Engine) (opts : Opts)
    (forms : List NevraForm) (err_pkgs : List String) :
    (packagesPhase eng opts false forms err_pkgs).2 = RunResult.ok := by
  by_cases hc : opts.command ≠ ["localinstall"]
  · simp [packagesPhase, hc, finalize_nonstrict]
  · simp [packagesPhase, hc, finalize_nonstrict]

theorem groupsPhase_nonstrict (eng : Engine) (opts : Opts)
    (forms : List NevraForm) (skipped_grp_specs err_pkgs : List String) :
    (groupsPhase eng opts false forms skipped_grp_specs err_pkgs).2 =
      RunResult.ok := by
  by_cases h1 : skipped_grp_specs ≠ [] ∧ forms ≠ []
  · simp [groupsPhase, h1, packagesPhase_nonstrict]
  · by_cases h2 : skipped_grp_specs ≠ [] ∧ opts.command ≠ ["localinstall"]
    · rw [groupsPhase, if_neg h1, if_pos h2]
      simp only [_install_groups_snd_nonstrict]
      exact packagesPhase_nonstrict eng opts forms err_pkgs
    · rw [groupsPhase, if_neg h1, if_neg h2]
      exact packagesPhase_nonstrict eng opts forms err_pkgs

theorem filesPhase_nonstrict (eng : Engine) (opts : Opts)
    (forms : List NevraForm) (skipped_grp_specs : List String) :
    (filesPhase eng opts false forms skipped_grp_specs).2 = RunResult.ok := by
  by_cases h1 : opts.filenames ≠ [] ∧ forms ≠ []
  · simp [filesPhase, h1, groupsPhase_nonstrict]
  · rw [filesPhase, if_neg h1]
    exact groupsPhase_nonstrict eng opts forms skipped_grp_specs _

theorem run_nonstrict_ok (eng : Engine) (opts : Opts) :
    (run eng opts { strict := false }).2 = RunResult.ok := by
  have h0 : ¬(opts.command = ["localinstall"] ∧
      (opts.grp_specs ≠ [] ∨ opts.pkg_specs ≠ []) ∧
      Conf.strict { strict := false } = true) := by
    simp
  rw [run, if_neg h0]
  show (modulePhase eng opts false _).2 = _
  by_cases hm : opts.grp_specs ≠ [] ∧ opts.command ≠ ["localinstall"]
  · rw [modulePhase, if_pos hm]
    exact filesPhase_nonstrict eng opts _ _
  · rw [modulePhase, if_neg hm]
    exact filesPhase_nonstrict eng opts _ _

theorem installPkgSpecsOf_append (l l' : List Event) :
    installPkgSpecsOf (l ++ l') =
      installPkgSpecsOf l ++ installPkgSpecsOf l' := by
  simp [installPkgSpecsOf]

theorem installPkgSpecsOf_install_groups (eng : Engine) (opts : Opts)
    (grp_specs : List String) (strict : Bool) :
    installPkgSpecsOf (_install_groups eng opts grp_specs strict).1 = [] := by
  rw [_install_groups_fst]
  rfl

theorem packagesPhase_specs (eng : Engine) (opts : Opts) (strict : Bool)
    (forms : List NevraForm) (err_pkgs : List String)
    (hc : opts.command ≠ ["localinstall"]) :
    installPkgSpecsOf (packagesPhase eng opts strict forms err_pkgs).1 =
      opts.pkg_specs := by
  rw [packagesPhase, if_pos hc]
  exact installPkgSpecsOf_install_packages eng strict forms opts.pkg_specs

theorem groupsPhase_specs_nonstrict (eng : Engine) (opts : Opts)
    (forms : List NevraForm) (skipped_grp_specs err_pkgs : List String)
    (hc : opts.command ≠ ["localinstall"]) :
    installPkgSpecsOf (groupsPhase eng opts false forms skipped_grp_specs err_pkgs).1 =
      opts.pkg_specs := by
  by_cases h1 : skipped_grp_specs ≠ [] ∧ forms ≠ []
  · rw [groupsPhase, if_pos h1, if_neg (by simp : ¬(false = true))]
    exact packagesPhase_specs eng opts false forms err_pkgs hc
  · by_cases h2 : skipped_grp_specs ≠ [] ∧ opts.command ≠ ["localinstall"]
    · rw [groupsPhase, if_neg h1, if_pos h2]
      simp only [_install_groups_snd_nonstrict]
      rw [installPkgSpecsOf_append, installPkgSpecsOf_install_groups]
      rw [List.nil_append]
      exact packagesPhase_specs eng opts false forms err_pkgs hc
    · rw [groupsPhase, if_neg h1, if_neg h2]
      exact packagesPhase_specs eng opts false forms err_pkgs hc

theorem filesPhase_specs_nonstrict (eng : Engine) (opts : Opts)
    (forms : List NevraForm) (skipped_grp_specs : List String)
    (hc : opts.command ≠ ["localinstall"]) :
    installPkgSpecsOf (filesPhase eng opts false forms skipped_grp_specs).1 =
      opts.pkg_specs := by
  by_cases h1 : opts.filenames ≠ [] ∧ forms ≠ []
  · rw [filesPhase, if_pos h1, if_neg (by simp : ¬(false = true))]
    exact groupsPhase_specs_nonstrict eng opts forms skipped_grp_specs [] hc
  · rw [filesPhase, if_neg h1]
    show installPkgSpecsOf ((_install_files eng opts false).1 ++ _) = _
    rw [installPkgSpecsOf_append]
    have hf : installPkgSpecsOf (_install_files eng opts false).1 = [] := by
      rw [_install_files]
      show installPkgSpecsOf (Event.addRemoteRpms _ _ :: _) = []
      show installPkgSpecsOf (package_install_loop eng false _).1 = []
      exact installPkgSpecsOf_package_install_loop eng false _
    rw [hf, List.nil_append]
    exact groupsPhase_specs_nonstrict eng opts forms skipped_grp_specs _ hc

theorem run_specs_nonstrict (eng : Engine) (opts : Opts)
    (hc : opts.command ≠ ["localinstall"]) :
    installPkgSpecsOf (run eng opts { strict := false }).1 =
      opts.pkg_specs := by
  have h0 : ¬(opts.command = ["localinstall"] ∧
      (opts.grp_specs ≠ [] ∨ opts.pkg_specs ≠ []) ∧
      Conf.strict { strict := false } = true) := by
    simp
  rw [run, if_neg h0]
  show installPkgSpecsOf (Event.applySecurityFilter ::
    (modulePhase eng opts false _).1) = _
  show installPkgSpecsOf (modulePhase eng opts false _).1 = _
  by_cases hm : opts.grp_specs ≠ [] ∧ opts.command ≠ ["localinstall"]
  · rw [modulePhase, if_pos hm]
    show installPkgSpecsOf (Event.installModule _ _ :: _) = _
    show installPkgSpecsOf (filesPhase eng opts false _ _).1 = _
    exact filesPhase_specs_nonstrict eng opts _ _ hc
  · rw [modulePhase, if_neg hm]
    exact filesPhase_specs_nonstrict eng opts _ _ hc

theorem run_group_error_strict (eng : Engine) (opts : Opts) (e : GroupError)
    (hc : opts.command ≠ ["localinstall"])
    (hn : _get_nevra_forms_from_command opts.command = [])
    (hg : opts.grp_specs ≠ [])
    (hsk : eng.install_module opts.grp_specs opts.assumeyes ≠ [])
    (he : eng.env_group_install opts.grp_specs true = some e) :
    (run eng opts { strict := true }).2 = RunResult.groupError e := by
  have h0 : ¬(opts.command = ["localinstall"] ∧
      (opts.grp_specs ≠ [] ∨ opts.pkg_specs ≠ []) ∧
      Conf.strict { strict := true } = true) :=
    fun hh => hc hh.1
  rw [run, if_neg h0]
  show (modulePhase eng opts true (_get_nevra_forms_from_command opts.command)).2 = _
  rw [hn, modulePhase, if_pos ⟨hg, hc⟩]
  show (filesPhase eng opts true [] _).2 = _
  rw [filesPhase, if_neg (by simp : ¬(opts.filenames ≠ [] ∧ ([] : List NevraForm) ≠ []))]
  show (groupsPhase eng opts true []
    (eng.install_module opts.grp_specs opts.assumeyes) _).2 = _
  rw [groupsPhase, if_neg (by simp : ¬(eng.install_module opts.grp_specs opts.assumeyes ≠ [] ∧
      ([] : List NevraForm) ≠ [])), if_pos ⟨hsk, hc⟩]
  simp [_install_groups, he]

theorem modulePhase_countSec (eng : Engine) (opts : Opts) (strict : Bool)
    (forms : List NevraForm) :
    ((modulePhase eng opts strict forms).1.countP Event.isApplySecurityFilter) = 0 := by
  rw [List.countP_eq_zero]
  intro e he
  rcases modulePhase_mem eng opts strict forms e he with
    rfl | rfl | ⟨p, rfl⟩ | rfl | rfl | ⟨s, rfl⟩ | ⟨s, rfl⟩ <;>
    simp [Event.isApplySecurityFilter]

theorem package_install_loop_countAdd (eng : Engine) (strict : Bool)
    (pkgs : List String) :
    ((package_install_loop eng strict pkgs).1.countP Event.isAddRemoteRpms) = 0 := by
  rw [List.countP_eq_zero]
  intro e he
  rcases package_install_loop_mem eng strict pkgs e he with ⟨p, rfl⟩
  simp [Event.isAddRemoteRpms]

theorem groupsPhase_countAdd (eng : Engine) (opts : Opts) (strict : Bool)
    (forms : List NevraForm) (skipped_grp_specs err_pkgs : List String) :
    ((groupsPhase eng opts strict forms skipped_grp_specs err_pkgs).1.countP
      Event.isAddRemoteRpms) = 0 := by
  rw [List.countP_eq_zero]
  intro e he
  rcases groupsPhase_mem eng opts strict forms skipped_grp_specs err_pkgs e he with
    rfl | rfl | ⟨s, rfl⟩ | ⟨s, rfl⟩ <;>
    simp [Event.isAddRemoteRpms]

theorem filesPhase_countAdd (eng : Engine) (opts : Opts) (strict : Bool)
    (forms : List NevraForm) (skipped_grp_specs : List String)
    (h1 : ¬(opts.filenames ≠ [] ∧ forms ≠ [])) :
    ((filesPhase eng opts strict forms skipped_grp_specs).1.countP
      Event.isAddRemoteRpms) = 1 := by
  rw [filesPhase, if_neg h1]
  show (((_install_files eng opts strict).1 ++
    (groupsPhase eng opts strict forms skipped_grp_specs
      (_install_files eng opts strict).2).1).countP Event.isAddRemoteRpms) = 1
  rw [List.countP_append, groupsPhase_countAdd]
  show (((Event.addRemoteRpms opts.filenames strict ::
    (package_install_loop eng strict
      (eng.add_remote_rpms opts.filenames strict)).1).countP
        Event.isAddRemoteRpms) + 0) = 1
  rw [List.countP_cons, package_install_loop_countAdd]
  simp [Event.isAddRemoteRpms]

theorem length_filter_eq_sub {α : Type} (p : α → Bool) (l : List α) :
    (l.filter p).length = l.length - (l.filter fun x => !p x).length := by
  have h := List.length_eq_length_filter_add (l := l) p
  omega

end InstallCommand

namespace Claims

open InstallCommand

/-- C1: the claim says the classic group-installation phase resolves exactly
the skipped group specs.  In the source, `run` passes `skipped_grp_specs` to
`_install_groups`, but `_install_groups` hands `self.opts.grp_specs` — the
original full list — to `env_group_install`.  With `@a @b` requested and the
module layer satisfying `a` (skipping only `b`), the engine's classic group
install receives `["a", "b"]` and is never called with `["b"]`. -/
theorem C1_classic_groups_get_original_specs :
    engModAB.install_module ["a", "b"] true = ["b"] ∧
    Event.envGroupInstall ["a", "b"] true ∈
      (run engModAB optsGroupsAB { strict := true }).1 ∧
    Event.envGroupInstall ["b"] true ∉
      (run engModAB optsGroupsAB { strict := true }).1 := by
  refine ⟨rfl, by decide, by decide⟩

/-- C2: a request with a non-empty file-path list and a detected NEVRA form,
dispatched under strict mode, ends in the "Nothing to do." usage-conflict
error, and the trace contains no package-installation and no
group-installation engine call. -/
theorem C2_file_nevra_conflict_strict (eng : Engine) (opts : Opts)
    (conf : Conf) (hf : opts.filenames ≠ [])
    (hn : _get_nevra_forms_from_command opts.command ≠ [])
    (hs : conf.strict = true) :
    (run eng opts conf).2 = RunResult.nothingToDo ∧
    ((run eng opts conf).1.countP Event.isPkgOrGroupInstall) = 0 := by
  have hc : opts.command ≠ ["localinstall"] := fun h => by
    rw [h] at hn
    exact hn rfl
  have h0 : ¬(opts.command = ["localinstall"] ∧
      (opts.grp_specs ≠ [] ∨ opts.pkg_specs ≠ []) ∧ conf.strict = true) :=
    fun hh => hc hh.1
  rw [run, if_neg h0]
  have hfiles : ∀ skipped : List String,
      filesPhase eng opts conf.strict
        (_get_nevra_forms_from_command opts.command) skipped =
        ([], RunResult.nothingToDo) := by
    intro skipped
    rw [filesPhase, if_pos ⟨hf, hn⟩, if_pos hs]
  by_cases hm : opts.grp_specs ≠ [] ∧ opts.command ≠ ["localinstall"]
  · rw [modulePhase, if_pos hm, hfiles]
    exact ⟨rfl, by simp [Event.isPkgOrGroupInstall]⟩
  · rw [modulePhase, if_neg hm, hfiles]
    exact ⟨rfl, rfl⟩

/-- C2 witness: `dnf install-n p f.rpm` under strict mode. -/
theorem C2_file_nevra_conflict_strict_witness :
    (run engAllOk optsFormFile { strict := true }).2 = RunResult.nothingToDo ∧
    ((run engAllOk optsFormFile { strict := true }).1.countP
      Event.isPkgOrGroupInstall) = 0 :=
  C2_file_nevra_conflict_strict engAllOk optsFormFile { strict := true }
    (by decide) (by decide) rfl

/-- C3 counterexample: the claim requires the aggregate error payload to be
duplicate-free.  With the request `install x x` where `x` is unavailable, the
unmatched-spec union is `{x}` but the raised payload is `"x x"` — the spec
appears twice. -/
theorem C3_duplicate_payload_cex :
    (run engNoMatch optsPkgsXX { strict := true }).2 =
      RunResult.packagesNotAvailable "x x" [] ∧
    (optsPkgsXX.pkg_specs.filter fun x => !engNoMatch.install x true []).dedup
      = ["x"] ∧
    ("x x" : String) ≠ String.intercalate " " ["x"] := by
  refine ⟨by decide, by decide, by decide⟩

/-- C3 amended: on runs that reach finalization (no NEVRA form, not
localinstall, no group-resolution error), the aggregate error is raised iff
strict mode is on and some target is unmatched, and the payload carries the
unmatched package specs (one occurrence per failing request entry, joined
with spaces) together with every unmatched file target. -/
theorem C3_finalize_payload_iff (eng : Engine) (opts : Opts) (conf : Conf)
    (hc : opts.command ≠ ["localinstall"])
    (hn : _get_nevra_forms_from_command opts.command = [])
    (hge : eng.env_group_install opts.grp_specs conf.strict = none) :
    ((run eng opts conf).2 = RunResult.packagesNotAvailable
        (String.intercalate " "
          (opts.pkg_specs.filter fun x => !eng.install x conf.strict []))
        ((eng.add_remote_rpms opts.filenames conf.strict).filter
          fun p => !eng.package_install p conf.strict)) ↔
      (conf.strict = true ∧
        ((opts.pkg_specs.filter fun x => !eng.install x conf.strict []) ≠ [] ∨
          ((eng.add_remote_rpms opts.filenames conf.strict).filter
            fun p => !eng.package_install p conf.strict) ≠ [])) := by
  rw [run_snd_char eng opts conf hc hn hge]
  unfold finalize
  by_cases hcond :
      ((opts.pkg_specs.filter fun x => !eng.install x conf.strict []) ≠ [] ∨
        ((eng.add_remote_rpms opts.filenames conf.strict).filter
          fun p => !eng.package_install p conf.strict) ≠ []) ∧
      conf.strict = true
  · rw [if_pos hcond]
    exact ⟨fun _ => ⟨hcond.2, hcond.1⟩, fun _ => rfl⟩
  · rw [if_neg hcond]
    constructor
    · intro hcontra
      exact absurd hcontra (by simp)
    · intro hrr
      exact absurd ⟨hrr.2, hrr.1⟩ hcond

/-- C3 amended witness: `dnf install x x` with `x` unavailable under strict
mode raises the aggregate error with payload `"x x"`. -/
theorem C3_finalize_payload_iff_witness :
    (run engNoMatch optsPkgsXX { strict := true }).2 =
      RunResult.packagesNotAvailable
        (String.intercalate " "
          (optsPkgsXX.pkg_specs.filter
            fun x => !engNoMatch.install x (Conf.mk true).strict []))
        ((engNoMatch.add_remote_rpms optsPkgsXX.filenames
          (Conf.mk true).strict).filter
            fun p => !engNoMatch.package_install p (Conf.mk true).strict) :=
  (C3_finalize_payload_iff engNoMatch optsPkgsXX { strict := true }
    (by decide) rfl rfl).mpr ⟨rfl, Or.inl (by decide)⟩

/-- C4 counterexample: the engine signals a hard error during classic group
installation, yet with strict mode off the error is swallowed and the
dispatch completes successfully — it is not fatal regardless of
strictness. -/
theorem C4_nonstrict_swallow_cex :
    engGroupHardErr.env_group_install ["g"] false = some { hard := true } ∧
    Event.envGroupInstall ["g"] false ∈
      (run engGroupHardErr optsGroupG { strict := false }).1 ∧
    (run engGroupHardErr optsGroupG { strict := false }).2 = RunResult.ok := by
  refine ⟨rfl, by decide, by decide⟩

/-- C4 amended: on a run that reaches the classic group-installation phase
(groups present, some skipped by the module layer, no NEVRA form, not
localinstall) where the engine signals a hard error, the error aborts the
dispatch if and only if strict mode is on. -/
theorem C4_group_error_fatal_iff_strict (eng : Engine) (opts : Opts)
    (conf : Conf) (e : GroupError)
    (hc : opts.command ≠ ["localinstall"])
    (hn : _get_nevra_forms_from_command opts.command = [])
    (hg : opts.grp_specs ≠ [])
    (hsk : eng.install_module opts.grp_specs opts.assumeyes ≠ [])
    (he : eng.env_group_install opts.grp_specs conf.strict = some e) :
    ((run eng opts conf).2 = RunResult.groupError e ↔ conf.strict = true) := by
  cases conf with
  | mk strict =>
    cases strict with
    | false =>
      rw [run_nonstrict_ok]
      simp
    | true =>
      constructor
      · intro _
        rfl
      · intro _
        exact run_group_error_strict eng opts e hc hn hg hsk he

/-- C4 amended witness: under strict mode the hard group error propagates. -/
theorem C4_group_error_fatal_iff_strict_witness :
    (run engGroupHardErr optsGroupG { strict := true }).2 =
      RunResult.groupError { hard := true } :=
  (C4_group_error_fatal_iff_strict engGroupHardErr optsGroupG
    { strict := true } { hard := true } (by decide) rfl (by decide)
    (by decide) rfl).mpr rfl

/-- C5 counterexample: a `localinstall` request carrying one package spec,
dispatched with strict off, completes successfully but never attempts the
per-spec package install, so the "install attempted for all N specs"
part of the claim fails (here N = 1, M = 0). -/
theorem C5_localinstall_cex :
    (run engAllOk optsLocalPkgA { strict := false }).2 = RunResult.ok ∧
    ((run engAllOk optsLocalPkgA { strict := false }).1.countP
      Event.isInstallPkg) = 0 ∧
    optsLocalPkgA.pkg_specs.length = 1 := by
  refine ⟨by decide, by decide, rfl⟩

/-- C5 amended: every strict=false dispatch completes successfully, and for
every request whose command is not `localinstall` the per-spec package
install is attempted for all N package specs, in request order, with exactly
N − M matching ones queued (M the number of unmatched specs). -/
theorem C5_nonstrict_tolerance :
    (∀ (eng : Engine) (opts : Opts),
      (run eng opts { strict := false }).2 = RunResult.ok) ∧
    ∀ (eng : Engine) (opts : Opts), opts.command ≠ ["localinstall"] →
      installPkgSpecsOf (run eng opts { strict := false }).1 =
        opts.pkg_specs ∧
      (opts.pkg_specs.filter fun s =>
        eng.install s false (_get_nevra_forms_from_command opts.command)).length =
        opts.pkg_specs.length -
          (opts.pkg_specs.filter fun s =>
            !eng.install s false (_get_nevra_forms_from_command opts.command)).length := by
  constructor
  · exact run_nonstrict_ok
  · intro eng opts hc
    exact ⟨run_specs_nonstrict eng opts hc,
      length_filter_eq_sub _ opts.pkg_specs⟩

/-- C5 amended witness: `dnf install a b` with only `a` available and strict
off completes successfully and attempts both specs. -/
theorem C5_nonstrict_tolerance_witness :
    (run engMatchAOnly optsPkgsAB { strict := false }).2 = RunResult.ok ∧
    installPkgSpecsOf (run engMatchAOnly optsPkgsAB { strict := false }).1 =
      optsPkgsAB.pkg_specs :=
  ⟨C5_nonstrict_tolerance.1 engMatchAOnly optsPkgsAB,
   (C5_nonstrict_tolerance.2 engMatchAOnly optsPkgsAB (by decide)).1⟩

/-- C6: a `localinstall` invocation with a group spec present, under strict
mode, raises the usage-conflict error with a trace consisting of the
security filter alone — in particular no file intake (`add_remote_rpms`) and
no per-file package install precedes the raise. -/
theorem C6_localinstall_groups_raise_before_files (eng : Engine)
    (opts : Opts) (conf : Conf) (hcom : opts.command = ["localinstall"])
    (hg : opts.grp_specs ≠ []) (hs : conf.strict = true) :
    (run eng opts conf).2 = RunResult.nothingToDo ∧
    (run eng opts conf).1 = [Event.applySecurityFilter] := by
  rw [run, if_pos ⟨hcom, Or.inl hg, hs⟩]
  exact ⟨rfl, rfl⟩

/-- C6 witness: `dnf localinstall @g` under strict mode. -/
theorem C6_localinstall_groups_raise_before_files_witness :
    (run engAllOk optsLocalGroupG { strict := true }).2 =
      RunResult.nothingToDo ∧
    (run engAllOk optsLocalGroupG { strict := true }).1 =
      [Event.applySecurityFilter] :=
  C6_localinstall_groups_raise_before_files engAllOk optsLocalGroupG
    { strict := true } rfl (by decide) rfl

/-- C7: on every dispatch run — whatever the engine, options and strictness,
and also on runs ending in an error — the first engine call of the trace is
the update security filter application, and it occurs exactly once. -/
theorem C7_security_filter_first_and_once (eng : Engine) (opts : Opts)
    (conf : Conf) :
    (run eng opts conf).1.head? = some Event.applySecurityFilter ∧
    ((run eng opts conf).1.countP Event.isApplySecurityFilter) = 1 := by
  by_cases h0 : opts.command = ["localinstall"] ∧
      (opts.grp_specs ≠ [] ∨ opts.pkg_specs ≠ []) ∧ conf.strict = true
  · rw [run, if_pos h0]
    exact ⟨rfl, rfl⟩
  · rw [run, if_neg h0]
    refine ⟨rfl, ?_⟩
    show ((Event.applySecurityFilter ::
      (modulePhase eng opts conf.strict
        (_get_nevra_forms_from_command opts.command)).1).countP
          Event.isApplySecurityFilter) = 1
    rw [List.countP_cons, modulePhase_countSec]
    rfl

/-- C8: a `localinstall` dispatch only ever calls the security filter, the
file intake (`add_remote_rpms`) and the per-file package install
(`package_install`) on the engine: module resolution, classic group
installation and per-spec package installation are never invoked. -/
theorem C8_localinstall_only_file_calls (eng : Engine) (opts : Opts)
    (conf : Conf) (h : opts.command = ["localinstall"]) :
    ((run eng opts conf).1.all Event.isLocalinstallAllowed) = true := by
  have hn : _get_nevra_forms_from_command opts.command = [] := by
    rw [h]
    exact nevra_forms_of_localinstall
  by_cases h0 : opts.command = ["localinstall"] ∧
      (opts.grp_specs ≠ [] ∨ opts.pkg_specs ≠ []) ∧ conf.strict = true
  · rw [run, if_pos h0]
    rfl
  · rw [run, if_neg h0]
    show ((Event.applySecurityFilter ::
      (modulePhase eng opts conf.strict
        (_get_nevra_forms_from_command opts.command)).1).all
          Event.isLocalinstallAllowed) = true
    rw [List.all_cons]
    refine (Bool.and_eq_true _ _).mpr ⟨rfl, ?_⟩
    rw [List.all_eq_true]
    intro e he
    have hm : ¬(opts.grp_specs ≠ [] ∧ opts.command ≠ ["localinstall"]) := by
      simp [h]
    rw [modulePhase, if_neg hm, hn] at he
    have h1 : ¬(opts.filenames ≠ [] ∧ ([] : List NevraForm) ≠ []) := by simp
    rw [filesPhase, if_neg h1] at he
    rcases List.mem_append.mp he with he | he
    · rw [_install_files] at he
      rcases List.mem_cons.mp he with rfl | he
      · rfl
      · rcases package_install_loop_mem eng conf.strict _ e he with ⟨p, rfl⟩
        rfl
    · have h2 : ¬(opts.grp_specs ≠ [] ∧ ([] : List NevraForm) ≠ []) := by simp
      have h3 : ¬(opts.grp_specs ≠ [] ∧ opts.command ≠ ["localinstall"]) := by
        simp [h]
      rw [groupsPhase, if_neg h2, if_neg h3] at he
      rw [packagesPhase, if_neg (by simp [h])] at he
      simp at he

/-- C8 witness: `dnf localinstall a.rpm`. -/
theorem C8_localinstall_only_file_calls_witness :
    ((run engAllOk optsLocalFileA { strict := false }).1.all
      Event.isLocalinstallAllowed) = true :=
  C8_localinstall_only_file_calls engAllOk optsLocalFileA
    { strict := false } rfl

/-- C9: whenever the aggregate unmatched-targets error is raised, its
`pkg_spec` payload is the single string obtained by joining the unmatched
package specs with single spaces, in request order (empty when the package
phase did not run). -/
theorem C9_pkg_spec_payload_join (eng : Engine) (opts : Opts) (conf : Conf)
    (s : String) (pkgs : List String)
    (h : (run eng opts conf).2 = RunResult.packagesNotAvailable s pkgs) :
    s = String.intercalate " "
      (if opts.command = ["localinstall"] then []
       else opts.pkg_specs.filter fun x =>
         !eng.install x conf.strict
           (_get_nevra_forms_from_command opts.command)) :=
  run_pNA eng opts conf s pkgs h

/-- C9 witness: `dnf install a b` with neither spec available under strict
mode raises the aggregate error with payload `"a b"`. -/
theorem C9_pkg_spec_payload_join_witness :
    ("a b" : String) = String.intercalate " "
      (if optsPkgsAB.command = ["localinstall"] then []
       else optsPkgsAB.pkg_specs.filter fun x =>
         !engNoMatch.install x (Conf.mk true).strict
           (_get_nevra_forms_from_command optsPkgsAB.command)) :=
  C9_pkg_spec_payload_join engNoMatch optsPkgsAB { strict := true }
    "a b" [] (by decide)

/-- C10: whenever the filenames/NEVRA-form conflict does not hold and the
`localinstall` usage check passes, the file-installation phase runs and the
engine's remote-RPM intake is invoked exactly once — also when the file-path
list is empty. -/
theorem C10_remote_rpm_intake_once (eng : Engine) (opts : Opts) (conf : Conf)
    (h1 : ¬(opts.filenames ≠ [] ∧
      _get_nevra_forms_from_command opts.command ≠ []))
    (h0 : ¬(opts.command = ["localinstall"] ∧
      (opts.grp_specs ≠ [] ∨ opts.pkg_specs ≠ []) ∧ conf.strict = true)) :
    ((run eng opts conf).1.countP Event.isAddRemoteRpms) = 1 := by
  rw [run, if_neg h0]
  show ((Event.applySecurityFilter ::
    (modulePhase eng opts conf.strict
      (_get_nevra_forms_from_command opts.command)).1).countP
        Event.isAddRemoteRpms) = 1
  rw [List.countP_cons]
  have hmod : ((modulePhase eng opts conf.strict
      (_get_nevra_forms_from_command opts.command)).1.countP
        Event.isAddRemoteRpms) = 1 := by
    by_cases hm : opts.grp_specs ≠ [] ∧ opts.command ≠ ["localinstall"]
    · rw [modulePhase, if_pos hm]
      show ((Event.installModule opts.grp_specs opts.assumeyes ::
        (filesPhase eng opts conf.strict
          (_get_nevra_forms_from_command opts.command)
          (eng.install_module opts.grp_specs opts.assumeyes)).1).countP
            Event.isAddRemoteRpms) = 1
      rw [List.countP_cons, filesPhase_countAdd eng opts conf.strict _ _ h1]
      rfl
    · rw [modulePhase, if_neg hm]
      exact filesPhase_countAdd eng opts conf.strict _ _ h1
  rw [hmod]
  rfl

/-- C10 witness: `dnf install p` with an empty file-path list still invokes
the remote-RPM intake exactly once. -/
theorem C10_remote_rpm_intake_once_witness :
    ((run engAllOk optsPkgP { strict := true }).1.countP
      Event.isAddRemoteRpms) = 1 :=
  C10_remote_rpm_intake_once engAllOk optsPkgP { strict := true }
    (by decide) (by decide)

end Claims

end Dnf
